import Mathlib

/-!
Verification of the guibot/guibender backend-equalizer core.

This file gives a shallow embedding of

  * `src/guibender/cvequalizer.py` — `CVEqualizer` (algorithm registry,
    `configure_backend`, `_replace_params`, `sync_backend_to_params`,
    `can_calibrate`) and `CVParameter`;
  * `src/guibot/config.py` — `TemporaryConfig` and `LocalConfig`.

Python dictionaries are modelled as association lists with unique keys in
insertion order; assignment updates the first matching entry in place and
appends fresh keys, `pop` removes the entry, exactly like `dict`.  Python
`int` / `bool` / `float` / `None` scalar parameter values are modelled by the
tagged type `PVal`, with float literals idealised as exact rationals.  The
external OpenCV backend objects (`cv2.FeatureDetector_create` and friends)
are abstracted as an oracle `CVBackends` assigning to each algorithm name a
list of native parameters `(name, type tag, current value)`; the theorems
quantify over this oracle.  Exceptions are modelled by returning
`Option CVError` next to the (possibly partially mutated) state, which
reproduces Python's in-place mutation semantics under a raised exception.
-/

/-- Scalar values held by configuration parameters: Python `bool`, `int`,
`float` (idealised as `ℚ`) and `None`. -/
inductive PVal where
  | vBool (b : Bool)
  | vInt (n : Int)
  | vFloat (q : ℚ)
  | vNone
deriving DecidableEq, Repr

/-- `type(value) == bool` in Python (`type` is an exact test, so `True` and
`False` match only this case). -/
def PVal.isBool : PVal → Bool
  | .vBool _ => true
  | _ => false

/-- `type(value) == int` in Python; exact, so booleans do not match. -/
def PVal.isInt : PVal → Bool
  | .vInt _ => true
  | _ => false

/-- Numeric view used by Python's `>=` / `<=` on parameter values; `True` is
`1` and `False` is `0`; `None` is not comparable (`TypeError`). -/
def PVal.toRat? : PVal → Option ℚ
  | .vBool b => some (if b then 1 else 0)
  | .vInt n => some (n : ℚ)
  | .vFloat q => some q
  | .vNone => none

/-- Python `a <= b` on two scalar values; `none` models a `TypeError`. -/
def pvalLe (a b : PVal) : Option Bool :=
  match a.toRat?, b.toRat? with
  | some x, some y => some (decide (x ≤ y))
  | _, _ => none

/-- `CVParameter` from `cvequalizer.py`: a single equalizer parameter with
value, calibration `delta` and `tolerance`, an optional `(min, max)` range and
a `fixed` flag. -/
structure CVParameter where
  value : PVal
  delta : PVal
  tolerance : PVal
  range : Option PVal × Option PVal
  fixed : Bool
deriving DecidableEq, Repr

/-- `CVParameter.__init__(value, min=None, max=None, delta=1.0,
tolerance=0.1, fixed=True)`.  Boolean values force `delta = 0.0`,
`tolerance = 1.0`; (non-boolean) integer values force `delta = 1`,
`tolerance = 0.9`; the `assert value >= min` / `assert value <= max`
statements make construction fail (`none`) when a supplied bound is violated
or not comparable. -/
def CVParameter.init (value : PVal) (min max : Option PVal)
    (delta tolerance : PVal) (fixed : Bool) : Option CVParameter :=
  match (match min with | none => some true | some mn => pvalLe mn value),
        (match max with | none => some true | some mx => pvalLe value mx) with
  | some true, some true =>
      if value.isBool then
        some ⟨value, .vFloat 0, .vFloat 1, (min, max), fixed⟩
      else if value.isInt then
        some ⟨value, .vInt 1, .vFloat (mkRat 9 10), (min, max), fixed⟩
      else
        some ⟨value, delta, tolerance, (min, max), fixed⟩
  | _, _ => none

/-- Default `delta` argument (`1.0`). -/
def dfltDelta : PVal := .vFloat 1

/-- Default `tolerance` argument (`0.1`). -/
def dfltTolerance : PVal := .vFloat (mkRat 1 10)

/-- `CVParameter(value)` with all keyword arguments left at their defaults. -/
def cvParamDefault (value : PVal) : Option CVParameter :=
  CVParameter.init value none none dfltDelta dfltTolerance true

/-- C4: every successfully constructed `CVParameter` with both bounds
supplied satisfies `min ≤ value ≤ max` (and construction fails when a bound
is violated); a boolean value forces `delta = 0.0` and `tolerance = 1.0`
regardless of the `delta`/`tolerance` arguments; an integer value forces
`delta = 1` regardless of the `delta` argument. -/
theorem cvparameter_invariants :
    (∀ v mn mx d t f p, CVParameter.init v (some mn) (some mx) d t f = some p →
      pvalLe mn v = some true ∧ pvalLe v mx = some true ∧ p.value = v) ∧
    (∀ v mn mx d t f, pvalLe mn v ≠ some true →
      CVParameter.init v (some mn) (some mx) d t f = none) ∧
    (∀ v mn mx d t f, pvalLe v mx ≠ some true →
      CVParameter.init v (some mn) (some mx) d t f = none) ∧
    (∀ b mn mx d t f p, CVParameter.init (.vBool b) mn mx d t f = some p →
      p.delta = .vFloat 0 ∧ p.tolerance = .vFloat 1) ∧
    (∀ n mn mx d t f p, CVParameter.init (.vInt n) mn mx d t f = some p →
      p.delta = .vInt 1) := by
  refine ⟨?_, ?_, ?_, ?_, ?_⟩
  · intro v mn mx d t f p h
    unfold CVParameter.init at h
    split at h
    next h1 h2 =>
      refine ⟨h1, h2, ?_⟩
      split at h
      · injection h with h; subst h; rfl
      · split at h <;> (injection h with h; subst h; rfl)
    next => exact Option.noConfusion h
  · intro v mn mx d t f hne
    unfold CVParameter.init
    split
    next h1 _ => exact absurd h1 hne
    next => rfl
  · intro v mn mx d t f hne
    unfold CVParameter.init
    split
    next _ h2 => exact absurd h2 hne
    next => rfl
  · intro b mn mx d t f p h
    unfold CVParameter.init at h
    split at h
    next => injection h with h; subst h; exact ⟨rfl, rfl⟩
    next => exact Option.noConfusion h
  · intro n mn mx d t f p h
    unfold CVParameter.init at h
    split at h
    next => injection h with h; subst h; rfl
    next => exact Option.noConfusion h

/-- Witness for C4 at concrete inputs. -/
theorem cvparameter_invariants_witness :
    (pvalLe (.vInt 0) (.vInt 85) = some true ∧ pvalLe (.vInt 85) (.vInt 100) = some true ∧
      (CVParameter.mk (.vInt 85) (.vInt 1) (.vFloat (mkRat 9 10)) (some (.vInt 0), some (.vInt 100)) true).value = .vInt 85) ∧
    ((CVParameter.mk (.vBool true) (.vFloat 0) (.vFloat 1) (none, none) true).delta = .vFloat 0 ∧
      (CVParameter.mk (.vBool true) (.vFloat 0) (.vFloat 1) (none, none) true).tolerance = .vFloat 1) ∧
    (CVParameter.mk (.vInt 85) (.vInt 1) (.vFloat (mkRat 9 10)) (none, none) true).delta = .vInt 1 := by
  refine ⟨?_, ?_, ?_⟩
  · exact cvparameter_invariants.1 (.vInt 85) (.vInt 0) (.vInt 100) dfltDelta dfltTolerance true _ (by decide)
  · exact cvparameter_invariants.2.2.2.1 true none none dfltDelta dfltTolerance true _ (by decide)
  · exact cvparameter_invariants.2.2.2.2 85 none none dfltDelta dfltTolerance true _ (by decide)

/-- C10: a (non-boolean) integer value always yields `tolerance = 0.9`
regardless of the `tolerance` argument, and the boolean check precedes the
integer check, so `True`/`False` always receive `delta = 0.0`,
`tolerance = 1.0` and never the integer treatment. -/
theorem cvparameter_int_tolerance :
    (∀ n mn mx d t f p, CVParameter.init (.vInt n) mn mx d t f = some p →
      p.tolerance = .vFloat (mkRat 9 10) ∧ p.delta = .vInt 1) ∧
    (∀ b mn mx d t f p, CVParameter.init (.vBool b) mn mx d t f = some p →
      p.delta = .vFloat 0 ∧ p.tolerance = .vFloat 1 ∧
      ¬ (p.delta = .vInt 1 ∧ p.tolerance = .vFloat (mkRat 9 10))) := by
  constructor
  · intro n mn mx d t f p h
    unfold CVParameter.init at h
    split at h
    next => injection h with h; subst h; exact ⟨rfl, rfl⟩
    next => exact Option.noConfusion h
  · intro b mn mx d t f p h
    unfold CVParameter.init at h
    split at h
    next =>
      injection h with h; subst h
      refine ⟨rfl, rfl, ?_⟩
      rintro ⟨h1, -⟩
      exact PVal.noConfusion h1
    next => exact Option.noConfusion h

/-- Witness for C10 at concrete inputs. -/
theorem cvparameter_int_tolerance_witness :
    ((CVParameter.mk (.vInt 7) (.vInt 1) (.vFloat (mkRat 9 10)) (none, none) true).tolerance = .vFloat (mkRat 9 10) ∧
      (CVParameter.mk (.vInt 7) (.vInt 1) (.vFloat (mkRat 9 10)) (none, none) true).delta = .vInt 1) ∧
    ((CVParameter.mk (.vBool false) (.vFloat 0) (.vFloat 1) (none, none) true).delta = .vFloat 0 ∧
      (CVParameter.mk (.vBool false) (.vFloat 0) (.vFloat 1) (none, none) true).tolerance = .vFloat 1 ∧
      ¬ ((CVParameter.mk (.vBool false) (.vFloat 0) (.vFloat 1) (none, none) true).delta = .vInt 1 ∧
        (CVParameter.mk (.vBool false) (.vFloat 0) (.vFloat 1) (none, none) true).tolerance = .vFloat (mkRat 9 10))) := by
  constructor
  · exact cvparameter_int_tolerance.1 7 none none (.vFloat 5) (.vFloat 5) true _ (by decide)
  · exact cvparameter_int_tolerance.2 false none none (.vFloat 5) (.vFloat 5) true _ (by decide)

/-- Association list standing in for a Python `dict` with string keys:
unique keys in insertion order. -/
def alookup {α : Type} : List (String × α) → String → Option α
  | [], _ => none
  | (k, v) :: rest, n => if k == n then some v else alookup rest n

/-- `d[n] = v` on a Python `dict`: update the first matching entry in place,
append a fresh key at the end. -/
def aset {α : Type} : List (String × α) → String → α → List (String × α)
  | [], n, v => [(n, v)]
  | (k, w) :: rest, n, v =>
      if k == n then (n, v) :: rest else (k, w) :: aset rest n v

/-- `d.pop(n)` on a Python `dict`: remove the entry for `n`. -/
def aerase {α : Type} : List (String × α) → String → List (String × α)
  | [], _ => []
  | (k, w) :: rest, n => if k == n then rest else (k, w) :: aerase rest n

theorem alookup_aset_self {α : Type} (l : List (String × α)) (n : String) (v : α) :
    alookup (aset l n v) n = some v := by
  induction l with
  | nil => simp [aset, alookup]
  | cons kw rest ih =>
    obtain ⟨k, w⟩ := kw
    by_cases hk : k = n
    · subst hk; simp [aset, alookup]
    · simp [aset, alookup, hk, ih]

theorem alookup_aset_ne {α : Type} (l : List (String × α)) (n m : String) (v : α)
    (hne : m ≠ n) : alookup (aset l n v) m = alookup l m := by
  have hnm : n ≠ m := Ne.symm hne
  induction l with
  | nil => simp [aset, alookup, hnm]
  | cons kw rest ih =>
    obtain ⟨k, w⟩ := kw
    by_cases hk : k = n
    · subst hk; simp [aset, alookup, hnm]
    · by_cases hkm : k = m
      · subst hkm; simp [aset, alookup, hk]
      · simp [aset, alookup, hk, hkm, ih]

theorem aset_alookup_self {α : Type} (l : List (String × α)) (n : String) (v : α)
    (h : alookup l n = some v) : aset l n v = l := by
  induction l with
  | nil => simp [alookup] at h
  | cons kw rest ih =>
    obtain ⟨k, w⟩ := kw
    by_cases hk : k = n
    · subst hk
      simp only [alookup, beq_self_eq_true, if_pos] at h
      injection h with h
      simp [aset, h]
    · simp only [alookup, beq_iff_eq, hk, if_neg, not_false_iff] at h
      simp [aset, hk, ih h]

/-- A parameter dictionary `self.parameters[category]`. -/
abbrev ParamMap := List (String × CVParameter)

/-- A native parameter of an external OpenCV backend object, as seen through
the introspection protocol: name, `paramType` tag and the value returned by
the matching getter (`getInt` / `getBool` / `getDouble`). -/
abbrev BackendParam := String × Nat × PVal

/-- An external OpenCV backend object (`cv2.FeatureDetector_create(...)` etc.),
abstracted to its native parameter list. -/
abbrev Backend := List BackendParam

/-- Oracle for the external collaborator: which backend object each factory
call returns for a given algorithm name.  Fresh objects carry their default
parameter values. -/
structure CVBackends where
  detectorOf : String → Backend
  extractorOf : String → Backend

/-- `getParams()` of a backend object. -/
def backendNames (b : Backend) : List String := b.map (·.1)

/-- Exceptions that can escape the equalizer methods. -/
inductive CVError where
  | imageFinderMethodError
  | backendProtocolError
  | assertionError
  | keyError
deriving DecidableEq, Repr

/-- The registry state of a `CVEqualizer`: the current algorithm and the
parameter dictionary of each of the five fixed categories. -/
structure EqState where
  findCur : String
  tmatchCur : String
  fdetectCur : String
  fextractCur : String
  fmatchCur : String
  findParams : ParamMap
  tmatchParams : ParamMap
  fdetectParams : ParamMap
  fextractParams : ParamMap
  fmatchParams : ParamMap
deriving DecidableEq, Repr

/-- `self.parameters[category]` (the dictionary has exactly the five fixed
keys, so any other string is a missing key). -/
def EqState.paramsOf (s : EqState) (cat : String) : Option ParamMap :=
  if cat == "find" then some s.findParams
  else if cat == "tmatch" then some s.tmatchParams
  else if cat == "fdetect" then some s.fdetectParams
  else if cat == "fextract" then some s.fextractParams
  else if cat == "fmatch" then some s.fmatchParams
  else none

/-- `self.parameters[category] = m` for a known category. -/
def EqState.setParamsOf (s : EqState) (cat : String) (m : ParamMap) : EqState :=
  if cat == "find" then { s with findParams := m }
  else if cat == "tmatch" then { s with tmatchParams := m }
  else if cat == "fdetect" then { s with fdetectParams := m }
  else if cat == "fextract" then { s with fextractParams := m }
  else if cat == "fmatch" then { s with fmatchParams := m }
  else s

/-- `self.algorithms["find_methods"]`. -/
def find_methods : List String := ["template", "feature"]

/-- `self.algorithms["template_matchers"]`. -/
def template_matchers : List String :=
  ["autopy", "sqdiff", "ccorr", "ccoeff", "sqdiff_normed", "ccorr_normed", "ccoeff_normed"]

/-- `self.algorithms["feature_matchers"]`. -/
def feature_matchers : List String :=
  ["BruteForce", "BruteForce-L1", "BruteForce-Hamming", "BruteForce-Hamming(2)",
   "in-house-raw", "in-house-region"]

/-- `self.algorithms["feature_detectors"]`. -/
def feature_detectors : List String :=
  ["ORB", "FAST", "STAR", "GFTT", "HARRIS", "Dense", "oldSURF"]

/-- `self.algorithms["feature_extractors"]`. -/
def feature_extractors : List String := ["ORB", "BRIEF", "FREAK"]

/-- Curated wrapping of a native parameter value in `_replace_params`: a few
well-known `fdetect`/`fextract` parameter names get hand-picked ranges, all
others get `CVParameter(val)` with an unbounded range. -/
def mkNativeParam (cat name : String) (val : PVal) : Option CVParameter :=
  if (cat == "fdetect" || cat == "fextract") && name == "firstLevel" then
    CVParameter.init val (some (.vInt 0)) (some (.vInt 100)) dfltDelta dfltTolerance true
  else if (cat == "fdetect" || cat == "fextract") && name == "nFeatures" then
    CVParameter.init val none none (.vInt 100) dfltTolerance true
  else if (cat == "fdetect" || cat == "fextract") && name == "WTA_K" then
    CVParameter.init val (some (.vInt 2)) (some (.vInt 4)) dfltDelta dfltTolerance true
  else if (cat == "fdetect" || cat == "fextract") && name == "scaleFactor" then
    CVParameter.init val (some (.vFloat (mkRat 101 100))) (some (.vFloat 2)) dfltDelta dfltTolerance true
  else
    cvParamDefault val

/-- The second loop of `_replace_params`: walk the new backend's native
parameters, reading each value by its type tag.  A tag other than
`0`/`1`/`2` hits the `getAlgorithm` branch, which is designed to raise; the
dictionary keeps the entries installed before the failure. -/
def installNative (cat : String) (m : ParamMap) : List BackendParam → Option CVError × ParamMap
  | [] => (none, m)
  | (name, tag, val) :: rest =>
    if tag == 0 || tag == 1 || tag == 2 then
      match mkNativeParam cat name val with
      | some p => installNative cat (aset m name p) rest
      | none => (some .assertionError, m)
    else
      (some .backendProtocolError, m)

/-- The first loop of `_replace_params`: drop every parameter the old backend
reports, when present. -/
def popOld (m : ParamMap) : List String → ParamMap
  | [] => m
  | n :: rest => popOld (if (alookup m n).isSome then aerase m n else m) rest

/-- `CVEqualizer._replace_params(category, curr_old, curr_new)` acting on the
category's parameter dictionary.  `find`/`tmatch` return immediately;
`fdetect` with `oldSURF` and the two branches of `fmatch` install hard-coded
parameter sets (the `fmatch` query path is dead code behind an unconditional
`return` guarding an OpenCV bug); the remaining paths query the old and new
backend objects obtained from the oracle.  The unknown-category fall-through
(`old_backend` unbound, a `NameError` in Python) is modelled as a `keyError`;
it is unreachable from `configure_backend`. -/
def replaceParams (bk : CVBackends) (category curr_old curr_new : String)
    (m : ParamMap) : Option CVError × ParamMap :=
  if category == "find" then (none, m)
  else if category == "tmatch" then (none, m)
  else if category == "fdetect" then
    if curr_new == "oldSURF" then
      match cvParamDefault (.vInt 85) with
      | some p => (none, aset m "oldSURFdetect" p)
      | none => (some .assertionError, m)
    else
      installNative category
        (popOld m (backendNames (bk.detectorOf curr_old)))
        (bk.detectorOf curr_new)
  else if category == "fextract" then
    installNative category
      (popOld m (backendNames (bk.extractorOf curr_old)))
      (bk.extractorOf curr_new)
  else if category == "fmatch" then
    if curr_new == "in-house-region" then
      match CVParameter.init (.vInt 50) (some (.vInt 1)) none dfltDelta dfltTolerance true,
            CVParameter.init (.vInt 10) (some (.vInt 1)) none dfltDelta dfltTolerance true,
            CVParameter.init (.vInt 100) (some (.vInt 1)) none dfltDelta dfltTolerance true,
            CVParameter.init (.vFloat (mkRat 33 100)) (some (.vFloat (mkRat 1 10000)))
              (some (.vFloat 1)) dfltDelta dfltTolerance true with
      | some p1, some p2, some p3, some p4 =>
          (none, aset (aset (aset (aset m "refinements" p1) "recalc_interval" p2)
            "variants_k" p3) "variants_ratio" p4)
      | _, _, _, _ => (some .assertionError, m)
    else
      match CVParameter.init (.vFloat (mkRat 65 100)) (some (.vFloat 0)) (some (.vFloat 1))
              (.vFloat (mkRat 1 10)) dfltTolerance true,
            cvParamDefault (.vBool false),
            cvParamDefault (.vBool false) with
      | some p1, some p2, some p3 =>
          (none, aset (aset (aset m "ratioThreshold" p1) "ratioTest" p2) "symmetryTest" p3)
      | _, _, _ => (some .assertionError, m)
  else (some .keyError, m)

/-- One argument of `configure_backend`: validate the algorithm name against
the category's admissible set, call `_replace_params`, and only then assign
`self.current[category]`.  On an exception the partially mutated dictionary
is kept but `current` is not reassigned. -/
def cfgCat (bk : CVBackends) (category : String) (admissible : List String)
    (arg : Option String) (cur : String) (m : ParamMap) :
    Option CVError × String × ParamMap :=
  match arg with
  | none => (none, cur, m)
  | some v =>
    if admissible.contains v then
      match replaceParams bk category cur v m with
      | (none, m') => (none, v, m')
      | (some e, m') => (some e, cur, m')
    else (some .imageFinderMethodError, cur, m)

/-- `CVEqualizer.configure_backend(find_image, template_match,
feature_detect, feature_extract, feature_match)`: the five optional
arguments are processed sequentially in this fixed order; the first raised
exception aborts the call, keeping every change already applied. -/
def configure_backend (bk : CVBackends) (s : EqState)
    (find_image template_match feature_detect feature_extract feature_match : Option String) :
    Option CVError × EqState :=
  match cfgCat bk "find" find_methods find_image s.findCur s.findParams with
  | (some e, c, m) => (some e, { s with findCur := c, findParams := m })
  | (none, c1, m1) =>
    let s1 := { s with findCur := c1, findParams := m1 }
    match cfgCat bk "tmatch" template_matchers template_match s1.tmatchCur s1.tmatchParams with
    | (some e, c, m) => (some e, { s1 with tmatchCur := c, tmatchParams := m })
    | (none, c2, m2) =>
      let s2 := { s1 with tmatchCur := c2, tmatchParams := m2 }
      match cfgCat bk "fdetect" feature_detectors feature_detect s2.fdetectCur s2.fdetectParams with
      | (some e, c, m) => (some e, { s2 with fdetectCur := c, fdetectParams := m })
      | (none, c3, m3) =>
        let s3 := { s2 with fdetectCur := c3, fdetectParams := m3 }
        match cfgCat bk "fextract" feature_extractors feature_extract s3.fextractCur s3.fextractParams with
        | (some e, c, m) => (some e, { s3 with fextractCur := c, fextractParams := m })
        | (none, c4, m4) =>
          let s4 := { s3 with fextractCur := c4, fextractParams := m4 }
          match cfgCat bk "fmatch" feature_matchers feature_match s4.fmatchCur s4.fmatchParams with
          | (some e, c, m) => (some e, { s4 with fmatchCur := c, fmatchParams := m })
          | (none, c5, m5) => (none, { s4 with fmatchCur := c5, fmatchParams := m5 })

/-- The Python expression `param == "bytes"` in `can_calibrate`, where
`param` ranges over `self.parameters[category].values()`: `param` is a
`CVParameter` instance and `CVParameter` defines no `__eq__`, so the
comparison with a `str` falls back to identity and is always `False`. -/
def cvParamEqStr (_p : CVParameter) (_s : String) : Bool := false

/-- `CVEqualizer.can_calibrate(mark, category)`: unknown categories raise
`ImageFinderMethodError`; otherwise every parameter object of the category
has its `fixed` flag reassigned in place. -/
def can_calibrate (s : EqState) (mark : Bool) (category : String) :
    Option CVError × EqState :=
  match s.paramsOf category with
  | none => (some .imageFinderMethodError, s)
  | some m =>
    let m' := m.map (fun kv =>
      if category == "fextract" && cvParamEqStr kv.2 "bytes" then
        (kv.1, { kv.2 with fixed := true })
      else
        (kv.1, { kv.2 with fixed := !mark }))
    (none, s.setParamsOf category m')

/-- Look up the value a backend object currently reports for a parameter
name (first matching native parameter). -/
def bget : Backend → String → Option PVal
  | [], _ => none
  | (k, _, w) :: rest, n => if k == n then some w else bget rest n

/-- `setInt`/`setBool`/`setDouble` on a backend object: overwrite the stored
value of the named native parameter (names and type tags are immutable). -/
def bset : Backend → String → PVal → Backend
  | [], _, _ => []
  | (k, t, w) :: rest, n, v =>
      if k == n then (k, t, v) :: rest else (k, t, w) :: bset rest n v

/-- The `(name, paramType)` signature of a backend object; iteration order of
`getParams()` together with each parameter's immutable type tag. -/
def bsig (b : Backend) : List (String × Nat) := b.map (fun x => (x.1, x.2.1))

/-- The synchronization loop of `sync_backend_to_params`: for every native
parameter name of the backend that also exists in the registry, push the
registry value through the typed setter and write the pushed value back into
the registry entry.  A type tag other than `0`/`1`/`2` hits the
`setAlgorithm` branch, which raises. -/
def syncLoop (m : ParamMap) (b : Backend) : List (String × Nat) → Option CVError × Backend × ParamMap
  | [] => (none, b, m)
  | (name, tag) :: rest =>
    match alookup m name with
    | none => syncLoop m b rest
    | some p =>
      if tag == 0 || tag == 1 || tag == 2 then
        syncLoop (aset m name { p with value := p.value }) (bset b name p.value) rest
      else
        (some .backendProtocolError, b, m)

/-- `CVEqualizer.sync_backend_to_params(opencv_backend, category)`:
`find`, `tmatch`, `fdetect` under `oldSURF`, and `fmatch` under any current
algorithm return the backend unchanged (both `fmatch` branches return before
touching it — the known-buggy matcher introspection is short-circuited
unconditionally); the remaining categories run the synchronization loop.  An
unknown category string is a `KeyError`. -/
def sync_backend_to_params (s : EqState) (b : Backend) (category : String) :
    Option CVError × Backend × EqState :=
  if category == "find" || category == "tmatch" ||
      (category == "fdetect" && s.fdetectCur == "oldSURF") then
    (none, b, s)
  else if category == "fmatch" then
    if s.fmatchCur == "in-house-raw" || s.fmatchCur == "in-house-region" then
      (none, b, s)
    else
      (none, b, s)
  else
    match s.paramsOf category with
    | none => (some .keyError, b, s)
    | some m =>
      match syncLoop m b (bsig b) with
      | (e, b', m') => (e, b', s.setParamsOf category m')

/-- The parameter installed by `fdetect`/`oldSURF`: `CVParameter(85)`. -/
def pOldSURFdetect : CVParameter :=
  ⟨.vInt 85, .vInt 1, .vFloat (mkRat 9 10), (none, none), true⟩

/-- `CVParameter(50, 1, None)` installed as `refinements`. -/
def pRefinements : CVParameter :=
  ⟨.vInt 50, .vInt 1, .vFloat (mkRat 9 10), (some (.vInt 1), none), true⟩

/-- `CVParameter(10, 1, None)` installed as `recalc_interval`. -/
def pRecalcInterval : CVParameter :=
  ⟨.vInt 10, .vInt 1, .vFloat (mkRat 9 10), (some (.vInt 1), none), true⟩

/-- `CVParameter(100, 1, None)` installed as `variants_k`. -/
def pVariantsK : CVParameter :=
  ⟨.vInt 100, .vInt 1, .vFloat (mkRat 9 10), (some (.vInt 1), none), true⟩

/-- `CVParameter(0.33, 0.0001, 1.0)` installed as `variants_ratio`. -/
def pVariantsRatioParam : CVParameter :=
  ⟨.vFloat (mkRat 33 100), .vFloat 1, .vFloat (mkRat 1 10),
   (some (.vFloat (mkRat 1 10000)), some (.vFloat 1)), true⟩

/-- `CVParameter(0.65, 0.0, 1.0, 0.1)` installed as `ratioThreshold`. -/
def pRatioThreshold : CVParameter :=
  ⟨.vFloat (mkRat 65 100), .vFloat (mkRat 1 10), .vFloat (mkRat 1 10),
   (some (.vFloat 0), some (.vFloat 1)), true⟩

/-- `CVParameter(False)` installed as `ratioTest` and `symmetryTest`. -/
def pBoolFalse : CVParameter := ⟨.vBool false, .vFloat 0, .vFloat 1, (none, none), true⟩

theorem replace_find (bk : CVBackends) (o n : String) (m : ParamMap) :
    replaceParams bk "find" o n m = (none, m) := rfl

theorem replace_tmatch (bk : CVBackends) (o n : String) (m : ParamMap) :
    replaceParams bk "tmatch" o n m = (none, m) := rfl

theorem replace_fdetect_oldSURF (bk : CVBackends) (o : String) (m : ParamMap) :
    replaceParams bk "fdetect" o "oldSURF" m = (none, aset m "oldSURFdetect" pOldSURFdetect) := rfl

theorem replace_fmatch_ihr (bk : CVBackends) (o : String) (m : ParamMap) :
    replaceParams bk "fmatch" o "in-house-region" m =
      (none, aset (aset (aset (aset m "refinements" pRefinements)
        "recalc_interval" pRecalcInterval) "variants_k" pVariantsK)
        "variants_ratio" pVariantsRatioParam) := rfl

theorem replace_fmatch_other (bk : CVBackends) (o a : String) (m : ParamMap)
    (h : a ≠ "in-house-region") :
    replaceParams bk "fmatch" o a m =
      (none, aset (aset (aset m "ratioThreshold" pRatioThreshold)
        "ratioTest" pBoolFalse) "symmetryTest" pBoolFalse) := by
  unfold replaceParams
  rw [if_neg (by decide), if_neg (by decide), if_neg (by decide), if_neg (by decide),
    if_pos (by decide), if_neg (by simp [h])]
  rfl

/-- A concrete oracle whose backend objects expose no native parameters. -/
def bkEmpty : CVBackends := ⟨fun _ => [], fun _ => []⟩

/-- C5: static and parameter-free algorithm selections bypass the
native-parameter query protocol (the result never depends on the backend
oracle) and install their declared sets verbatim: `oldSURF` for `fdetect`
installs exactly `oldSURFdetect = 85`; `in-house-region` for `fmatch`
installs exactly `refinements`, `recalc_interval`, `variants_k`,
`variants_ratio` with their hard-coded defaults; `in-house-raw` installs
exactly `ratioThreshold`, `ratioTest`, `symmetryTest`; a switch of `find` or
`tmatch` installs no parameters at all. -/
theorem static_algorithms_install_verbatim :
    (∀ bk bk2 : CVBackends, ∀ o n m,
      replaceParams bk "find" o n m = (none, m) ∧
      replaceParams bk "tmatch" o n m = (none, m) ∧
      replaceParams bk "fdetect" o "oldSURF" m = replaceParams bk2 "fdetect" o "oldSURF" m ∧
      replaceParams bk "fmatch" o n m = replaceParams bk2 "fmatch" o n m) ∧
    (∀ bk : CVBackends, ∀ o m,
      (replaceParams bk "fdetect" o "oldSURF" m).1 = none ∧
      alookup (replaceParams bk "fdetect" o "oldSURF" m).2 "oldSURFdetect" = some pOldSURFdetect ∧
      ∀ k, k ≠ "oldSURFdetect" →
        alookup (replaceParams bk "fdetect" o "oldSURF" m).2 k = alookup m k) ∧
    (∀ bk : CVBackends, ∀ o m,
      (replaceParams bk "fmatch" o "in-house-region" m).1 = none ∧
      alookup (replaceParams bk "fmatch" o "in-house-region" m).2 "refinements" = some pRefinements ∧
      alookup (replaceParams bk "fmatch" o "in-house-region" m).2 "recalc_interval" = some pRecalcInterval ∧
      alookup (replaceParams bk "fmatch" o "in-house-region" m).2 "variants_k" = some pVariantsK ∧
      alookup (replaceParams bk "fmatch" o "in-house-region" m).2 "variants_ratio" = some pVariantsRatioParam ∧
      ∀ k, k ∉ (["refinements", "recalc_interval", "variants_k", "variants_ratio"] : List String) →
        alookup (replaceParams bk "fmatch" o "in-house-region" m).2 k = alookup m k) ∧
    (∀ bk : CVBackends, ∀ o m,
      (replaceParams bk "fmatch" o "in-house-raw" m).1 = none ∧
      alookup (replaceParams bk "fmatch" o "in-house-raw" m).2 "ratioThreshold" = some pRatioThreshold ∧
      alookup (replaceParams bk "fmatch" o "in-house-raw" m).2 "ratioTest" = some pBoolFalse ∧
      alookup (replaceParams bk "fmatch" o "in-house-raw" m).2 "symmetryTest" = some pBoolFalse ∧
      ∀ k, k ∉ (["ratioThreshold", "ratioTest", "symmetryTest"] : List String) →
        alookup (replaceParams bk "fmatch" o "in-house-raw" m).2 k = alookup m k) := by
  refine ⟨?_, ?_, ?_, ?_⟩
  · intro bk bk2 o n m
    refine ⟨replace_find bk o n m, replace_tmatch bk o n m, ?_, ?_⟩
    · rw [replace_fdetect_oldSURF, replace_fdetect_oldSURF]
    · by_cases hn : n = "in-house-region"
      · subst hn; rw [replace_fmatch_ihr, replace_fmatch_ihr]
      · rw [replace_fmatch_other bk o n m hn, replace_fmatch_other bk2 o n m hn]
  · intro bk o m
    rw [replace_fdetect_oldSURF]
    refine ⟨rfl, alookup_aset_self m "oldSURFdetect" pOldSURFdetect, ?_⟩
    intro k hk
    exact alookup_aset_ne m "oldSURFdetect" k pOldSURFdetect hk
  · intro bk o m
    rw [replace_fmatch_ihr]
    refine ⟨rfl, ?_, ?_, ?_, ?_, ?_⟩
    · rw [alookup_aset_ne _ _ _ _ (by decide), alookup_aset_ne _ _ _ _ (by decide),
        alookup_aset_ne _ _ _ _ (by decide), alookup_aset_self]
    · rw [alookup_aset_ne _ _ _ _ (by decide), alookup_aset_ne _ _ _ _ (by decide),
        alookup_aset_self]
    · rw [alookup_aset_ne _ _ _ _ (by decide), alookup_aset_self]
    · rw [alookup_aset_self]
    · intro k hk
      simp only [List.mem_cons, List.not_mem_nil, or_false, not_or] at hk
      obtain ⟨h1, h2, h3, h4⟩ := hk
      rw [alookup_aset_ne _ _ _ _ h4, alookup_aset_ne _ _ _ _ h3,
        alookup_aset_ne _ _ _ _ h2, alookup_aset_ne _ _ _ _ h1]
  · intro bk o m
    rw [replace_fmatch_other bk o "in-house-raw" m (by decide)]
    refine ⟨rfl, ?_, ?_, ?_, ?_⟩
    · rw [alookup_aset_ne _ _ _ _ (by decide), alookup_aset_ne _ _ _ _ (by decide),
        alookup_aset_self]
    · rw [alookup_aset_ne _ _ _ _ (by decide), alookup_aset_self]
    · rw [alookup_aset_self]
    · intro k hk
      simp only [List.mem_cons, List.not_mem_nil, or_false, not_or] at hk
      obtain ⟨h1, h2, h3⟩ := hk
      rw [alookup_aset_ne _ _ _ _ h3, alookup_aset_ne _ _ _ _ h2,
        alookup_aset_ne _ _ _ _ h1]

/-- Witness for C5 at concrete inputs. -/
theorem static_algorithms_install_verbatim_witness :
    alookup (replaceParams bkEmpty "fdetect" "ORB" "oldSURF" []).2 "oldSURFdetect" = some pOldSURFdetect ∧
    alookup (replaceParams bkEmpty "fmatch" "BruteForce" "in-house-region" []).2 "somethingElse" =
      alookup ([] : ParamMap) "somethingElse" :=
  ⟨(static_algorithms_install_verbatim.2.1 bkEmpty "ORB" []).2.1,
   (static_algorithms_install_verbatim.2.2.1 bkEmpty "BruteForce" []).2.2.2.2.2
     "somethingElse" (by decide)⟩

/-- `CVParameter(10.0, 0.0, 200.0, 10.0, 1.0)`, the default
`ransacReprojThreshold` of the `find` category. -/
def pRansacReprojThreshold : CVParameter :=
  ⟨.vFloat 10, .vFloat 10, .vFloat 1, (some (.vFloat 0), some (.vFloat 200)), true⟩

/-- The registry state right after `CVEqualizer.__init__()` when the backend
oracle reports no native parameters for the default `fdetect`/`fextract`
algorithms (`bkEmpty`). -/
def sInit : EqState :=
  { findCur := "template", tmatchCur := "ccoeff_normed", fdetectCur := "ORB",
    fextractCur := "BRIEF", fmatchCur := "BruteForce-Hamming",
    findParams := [("ransacReprojThreshold", pRansacReprojThreshold)],
    tmatchParams := [], fdetectParams := [], fextractParams := [],
    fmatchParams := [("ratioThreshold", pRatioThreshold), ("ratioTest", pBoolFalse),
      ("symmetryTest", pBoolFalse)] }

/-- `ratioThreshold` after a caller changed its value to `0.9`. -/
def pRatioModified : CVParameter := { pRatioThreshold with value := .vFloat (mkRat 9 10) }

/-- `sInit` after `ratioThreshold`'s value was changed to `0.9`. -/
def sMod : EqState :=
  { sInit with fmatchParams := aset sInit.fmatchParams "ratioThreshold" pRatioModified }

/-- C1 counterexample: on the `fmatch` category, switching from
`BruteForce-Hamming` to `in-house-region` and back leaves `refinements` — a
parameter unique to `in-house-region` — present in the registry (the static
sets are installed by overwriting without removing the old algorithm's
entries), and a shared parameter (`ratioThreshold`, modified to `0.9`
beforehand) is reset to its declared default `0.65` by a switch to
`BruteForce-L1` instead of keeping its current value. -/
theorem roundtrip_restore_counterexample :
    (alookup sInit.fmatchParams "refinements" = none ∧
      alookup (configure_backend bkEmpty
          (configure_backend bkEmpty sInit none none none none (some "in-house-region")).2
          none none none none (some "BruteForce-Hamming")).2.fmatchParams "refinements" =
        some pRefinements) ∧
    (alookup sMod.fmatchParams "ratioThreshold" = some pRatioModified ∧
      pRatioModified.value = .vFloat (mkRat 9 10) ∧
      alookup (configure_backend bkEmpty sMod none none none none
          (some "BruteForce-L1")).2.fmatchParams "ratioThreshold" = some pRatioThreshold ∧
      pRatioThreshold.value ≠ pRatioModified.value) := by
  decide

/-- A `configure_backend` call that only selects an admissible `fmatch`
algorithm succeeds and rewrites exactly the `fmatch` slot. -/
theorem configure_fmatch_step (bk : CVBackends) (s : EqState) (a : String) (m' : ParamMap)
    (ha : feature_matchers.contains a = true)
    (hr : replaceParams bk "fmatch" s.fmatchCur a s.fmatchParams = (none, m')) :
    configure_backend bk s none none none none (some a) =
      (none, { s with fmatchCur := a, fmatchParams := m' }) := by
  unfold configure_backend cfgCat
  simp only [ha, if_true, hr]

/-- The names of the hard-coded parameter set `_replace_params` installs for
an `fmatch` algorithm. -/
def fmatchStaticNames (a : String) : List String :=
  if a == "in-house-region" then
    ["refinements", "recalc_interval", "variants_k", "variants_ratio"]
  else
    ["ratioThreshold", "ratioTest", "symmetryTest"]

/-- C1 (amended): for admissible `fmatch` algorithms `a1`, `a2`, switching
from `a1` to `a2` and back to `a1` leaves every parameter of `a1`'s declared
set present with its declared default value, and leaves every parameter
outside both declared sets untouched (names and values); however, parameters
unique to `a2` are not removed by the switch back (`refinements` survives a
round trip through `in-house-region`), and a shared parameter's value is
reset to the incoming algorithm's declared default rather than kept. -/
theorem roundtrip_restore_amended :
    ∀ (bk : CVBackends) (s : EqState) (a1 a2 : String),
    feature_matchers.contains a1 = true →
    feature_matchers.contains a2 = true →
    ∃ s1 s2,
      configure_backend bk s none none none none (some a2) = (none, s1) ∧
      configure_backend bk s1 none none none none (some a1) = (none, s2) ∧
      (a1 ≠ "in-house-region" →
        alookup s2.fmatchParams "ratioThreshold" = some pRatioThreshold ∧
        alookup s2.fmatchParams "ratioTest" = some pBoolFalse ∧
        alookup s2.fmatchParams "symmetryTest" = some pBoolFalse) ∧
      (a1 = "in-house-region" →
        alookup s2.fmatchParams "refinements" = some pRefinements ∧
        alookup s2.fmatchParams "recalc_interval" = some pRecalcInterval ∧
        alookup s2.fmatchParams "variants_k" = some pVariantsK ∧
        alookup s2.fmatchParams "variants_ratio" = some pVariantsRatioParam) ∧
      (a2 = "in-house-region" → a1 ≠ "in-house-region" →
        alookup s2.fmatchParams "refinements" = some pRefinements) ∧
      (∀ k, k ∉ fmatchStaticNames a1 → k ∉ fmatchStaticNames a2 →
        alookup s2.fmatchParams k = alookup s.fmatchParams k) := by
  intro bk s a1 a2 h1 h2
  by_cases ha2 : a2 = "in-house-region"
  · subst ha2
    by_cases ha1 : a1 = "in-house-region"
    · subst ha1
      refine ⟨_, _, configure_fmatch_step bk s _ _ h2
          (replace_fmatch_ihr bk s.fmatchCur s.fmatchParams),
        configure_fmatch_step bk _ _ _ h1 (replace_fmatch_ihr bk _ _),
        ?_, ?_, ?_, ?_⟩
      · intro habs; exact absurd rfl habs
      · intro _
        dsimp only
        refine ⟨?_, ?_, ?_, ?_⟩
        · rw [alookup_aset_ne _ _ _ _ (by decide), alookup_aset_ne _ _ _ _ (by decide),
            alookup_aset_ne _ _ _ _ (by decide), alookup_aset_self]
        · rw [alookup_aset_ne _ _ _ _ (by decide), alookup_aset_ne _ _ _ _ (by decide),
            alookup_aset_self]
        · rw [alookup_aset_ne _ _ _ _ (by decide), alookup_aset_self]
        · rw [alookup_aset_self]
      · intro _ habs; exact absurd rfl habs
      · intro k hk1 hk2
        simp only [fmatchStaticNames, beq_self_eq_true, if_true, List.mem_cons,
          List.not_mem_nil, or_false, not_or] at hk1
        obtain ⟨hr, hrc, hvk, hvr⟩ := hk1
        dsimp only
        rw [alookup_aset_ne _ _ _ _ hvr, alookup_aset_ne _ _ _ _ hvk,
          alookup_aset_ne _ _ _ _ hrc, alookup_aset_ne _ _ _ _ hr,
          alookup_aset_ne _ _ _ _ hvr, alookup_aset_ne _ _ _ _ hvk,
          alookup_aset_ne _ _ _ _ hrc, alookup_aset_ne _ _ _ _ hr]
    · refine ⟨_, _, configure_fmatch_step bk s _ _ h2
          (replace_fmatch_ihr bk s.fmatchCur s.fmatchParams),
        configure_fmatch_step bk _ _ _ h1 (replace_fmatch_other bk _ a1 _ ha1),
        ?_, ?_, ?_, ?_⟩
      · intro _
        dsimp only
        refine ⟨?_, ?_, ?_⟩
        · rw [alookup_aset_ne _ _ _ _ (by decide), alookup_aset_ne _ _ _ _ (by decide),
            alookup_aset_self]
        · rw [alookup_aset_ne _ _ _ _ (by decide), alookup_aset_self]
        · rw [alookup_aset_self]
      · intro habs; exact absurd habs ha1
      · intro _ _
        dsimp only
        rw [alookup_aset_ne _ _ _ _ (by decide), alookup_aset_ne _ _ _ _ (by decide),
          alookup_aset_ne _ _ _ _ (by decide), alookup_aset_ne _ _ _ _ (by decide),
          alookup_aset_ne _ _ _ _ (by decide), alookup_aset_ne _ _ _ _ (by decide),
          alookup_aset_self]
      · intro k hk1 hk2
        simp only [fmatchStaticNames, beq_self_eq_true, if_true, List.mem_cons,
          List.not_mem_nil, or_false, not_or] at hk2
        have hba1 : (a1 == "in-house-region") = false := by simpa using ha1
        simp only [fmatchStaticNames, hba1, Bool.false_eq_true, if_false, List.mem_cons,
          List.not_mem_nil, or_false, not_or] at hk1
        obtain ⟨hrT, hrTest, hsT⟩ := hk1
        obtain ⟨hr, hrc, hvk, hvr⟩ := hk2
        dsimp only
        rw [alookup_aset_ne _ _ _ _ hsT, alookup_aset_ne _ _ _ _ hrTest,
          alookup_aset_ne _ _ _ _ hrT, alookup_aset_ne _ _ _ _ hvr,
          alookup_aset_ne _ _ _ _ hvk, alookup_aset_ne _ _ _ _ hrc,
          alookup_aset_ne _ _ _ _ hr]
  · by_cases ha1 : a1 = "in-house-region"
    · subst ha1
      refine ⟨_, _, configure_fmatch_step bk s _ _ h2
          (replace_fmatch_other bk s.fmatchCur a2 s.fmatchParams ha2),
        configure_fmatch_step bk _ _ _ h1 (replace_fmatch_ihr bk _ _),
        ?_, ?_, ?_, ?_⟩
      · intro habs; exact absurd rfl habs
      · intro _
        dsimp only
        refine ⟨?_, ?_, ?_, ?_⟩
        · rw [alookup_aset_ne _ _ _ _ (by decide), alookup_aset_ne _ _ _ _ (by decide),
            alookup_aset_ne _ _ _ _ (by decide), alookup_aset_self]
        · rw [alookup_aset_ne _ _ _ _ (by decide), alookup_aset_ne _ _ _ _ (by decide),
            alookup_aset_self]
        · rw [alookup_aset_ne _ _ _ _ (by decide), alookup_aset_self]
        · rw [alookup_aset_self]
      · intro habs; exact absurd habs ha2
      · intro k hk1 hk2
        simp only [fmatchStaticNames, beq_self_eq_true, if_true, List.mem_cons,
          List.not_mem_nil, or_false, not_or] at hk1
        have hba2 : (a2 == "in-house-region") = false := by simpa using ha2
        simp only [fmatchStaticNames, hba2, Bool.false_eq_true, if_false, List.mem_cons,
          List.not_mem_nil, or_false, not_or] at hk2
        obtain ⟨hr, hrc, hvk, hvr⟩ := hk1
        obtain ⟨hrT, hrTest, hsT⟩ := hk2
        dsimp only
        rw [alookup_aset_ne _ _ _ _ hvr, alookup_aset_ne _ _ _ _ hvk,
          alookup_aset_ne _ _ _ _ hrc, alookup_aset_ne _ _ _ _ hr,
          alookup_aset_ne _ _ _ _ hsT, alookup_aset_ne _ _ _ _ hrTest,
          alookup_aset_ne _ _ _ _ hrT]
    · refine ⟨_, _, configure_fmatch_step bk s _ _ h2
          (replace_fmatch_other bk s.fmatchCur a2 s.fmatchParams ha2),
        configure_fmatch_step bk _ _ _ h1 (replace_fmatch_other bk _ a1 _ ha1),
        ?_, ?_, ?_, ?_⟩
      · intro _
        dsimp only
        refine ⟨?_, ?_, ?_⟩
        · rw [alookup_aset_ne _ _ _ _ (by decide), alookup_aset_ne _ _ _ _ (by decide),
            alookup_aset_self]
        · rw [alookup_aset_ne _ _ _ _ (by decide), alookup_aset_self]
        · rw [alookup_aset_self]
      · intro habs; exact absurd habs ha1
      · intro habs; exact absurd habs ha2
      · intro k hk1 hk2
        have hba1 : (a1 == "in-house-region") = false := by simpa using ha1
        simp only [fmatchStaticNames, hba1, Bool.false_eq_true, if_false, List.mem_cons,
          List.not_mem_nil, or_false, not_or] at hk1
        obtain ⟨hrT, hrTest, hsT⟩ := hk1
        dsimp only
        rw [alookup_aset_ne _ _ _ _ hsT, alookup_aset_ne _ _ _ _ hrTest,
          alookup_aset_ne _ _ _ _ hrT, alookup_aset_ne _ _ _ _ hsT,
          alookup_aset_ne _ _ _ _ hrTest, alookup_aset_ne _ _ _ _ hrT]

/-- Witness for the amended C1 at concrete inputs. -/
theorem roundtrip_restore_amended_witness :
    ∃ s1 s2,
      configure_backend bkEmpty sInit none none none none (some "in-house-region") = (none, s1) ∧
      configure_backend bkEmpty s1 none none none none (some "BruteForce-Hamming") = (none, s2) ∧
      ("BruteForce-Hamming" ≠ "in-house-region" →
        alookup s2.fmatchParams "ratioThreshold" = some pRatioThreshold ∧
        alookup s2.fmatchParams "ratioTest" = some pBoolFalse ∧
        alookup s2.fmatchParams "symmetryTest" = some pBoolFalse) ∧
      ("BruteForce-Hamming" = "in-house-region" →
        alookup s2.fmatchParams "refinements" = some pRefinements ∧
        alookup s2.fmatchParams "recalc_interval" = some pRecalcInterval ∧
        alookup s2.fmatchParams "variants_k" = some pVariantsK ∧
        alookup s2.fmatchParams "variants_ratio" = some pVariantsRatioParam) ∧
      ("in-house-region" = "in-house-region" → "BruteForce-Hamming" ≠ "in-house-region" →
        alookup s2.fmatchParams "refinements" = some pRefinements) ∧
      (∀ k, k ∉ fmatchStaticNames "BruteForce-Hamming" → k ∉ fmatchStaticNames "in-house-region" →
        alookup s2.fmatchParams k = alookup sInit.fmatchParams k) :=
  roundtrip_restore_amended bkEmpty sInit "BruteForce-Hamming" "in-house-region"
    (by decide) (by decide)

theorem installNative_no_ifme (cat : String) :
    ∀ l m, (installNative cat m l).1 ≠ some CVError.imageFinderMethodError := by
  intro l
  induction l with
  | nil => intro m h; exact Option.noConfusion h
  | cons x rest ih =>
    intro m
    obtain ⟨name, tag, val⟩ := x
    unfold installNative
    split_ifs with ht
    · rcases hmk : mkNativeParam cat name val with _ | p
      · intro h; injection h with h; exact CVError.noConfusion h
      · exact ih (aset m name p)
    · intro h; injection h with h; exact CVError.noConfusion h

theorem replaceParams_no_ifme (bk : CVBackends) (cat o n : String) (m : ParamMap) :
    (replaceParams bk cat o n m).1 ≠ some CVError.imageFinderMethodError := by
  unfold replaceParams
  split_ifs
  · intro h; exact Option.noConfusion h
  · intro h; exact Option.noConfusion h
  · intro h; exact Option.noConfusion h
  · exact installNative_no_ifme cat _ _
  · exact installNative_no_ifme cat _ _
  · intro h; exact Option.noConfusion h
  · intro h; exact Option.noConfusion h
  · intro h; injection h with h; exact CVError.noConfusion h

/-- An `ImageFinderMethodError` out of one `configure_backend` argument comes
from the admissibility test, before any mutation: the category keeps its
previous algorithm and parameter dictionary. -/
theorem cfgCat_ifme (bk : CVBackends) (cat : String) (adm : List String)
    (arg : Option String) (cur c' : String) (m m' : ParamMap)
    (h : cfgCat bk cat adm arg cur m = (some .imageFinderMethodError, c', m')) :
    c' = cur ∧ m' = m := by
  cases arg with
  | none => exact absurd h (by simp [cfgCat])
  | some v =>
    simp only [cfgCat] at h
    split_ifs at h with hc
    · rcases hr : replaceParams bk cat cur v m with ⟨e0, m0⟩
      rw [hr] at h
      cases e0 with
      | none => simp [Prod.ext_iff] at h
      | some e =>
        have hno := replaceParams_no_ifme bk cat cur v m
        rw [hr] at hno
        simp only [Prod.ext_iff] at h
        obtain ⟨he, -, -⟩ := h
        exact absurd (by simp only [he] : (some e : Option CVError) = some .imageFinderMethodError) hno
    · simp only [Prod.ext_iff] at h
      exact ⟨h.2.1.symm, h.2.2.symm⟩

theorem cfgCat_none (bk : CVBackends) (cat : String) (adm : List String)
    (cur : String) (m : ParamMap) :
    cfgCat bk cat adm none cur m = (none, cur, m) := rfl

/-- C2 counterexample: `configure_backend(find_image="feature",
template_match="bogus")` raises `ImageFinderMethodError` for the second
argument, yet the registry is not what it was before the call: the `find`
category has already been switched to `"feature"`.  Configuration changes are
per-argument, not all-or-nothing per call. -/
theorem configure_atomicity_counterexample :
    (configure_backend bkEmpty sInit (some "feature") (some "bogus") none none none).1 =
      some .imageFinderMethodError ∧
    (configure_backend bkEmpty sInit (some "feature") (some "bogus") none none none).2.findCur =
      "feature" ∧
    sInit.findCur = "template" ∧
    (configure_backend bkEmpty sInit (some "feature") (some "bogus") none none none).2 ≠ sInit := by
  decide

/-- C2 (amended): whenever `configure_backend` raises
`ImageFinderMethodError`, the registry is left in exactly the state produced
by a successful call passing a prefix of the original arguments (each
argument either kept or dropped): arguments processed before the failing one
remain applied, the failing and later arguments cause no change, and the
state is entirely unchanged precisely when the failing argument is the first
one processed. -/
theorem configure_error_prefix :
    ∀ (bk : CVBackends) (s : EqState) (fi tm fd fe fm : Option String) (s' : EqState),
    configure_backend bk s fi tm fd fe fm = (some .imageFinderMethodError, s') →
    ∃ fi2 tm2 fd2 fe2,
      (fi2 = fi ∨ fi2 = none) ∧ (tm2 = tm ∨ tm2 = none) ∧
      (fd2 = fd ∨ fd2 = none) ∧ (fe2 = fe ∨ fe2 = none) ∧
      configure_backend bk s fi2 tm2 fd2 fe2 none = (none, s') := by
  intro bk s fi tm fd fe fm s' h
  unfold configure_backend at h
  rcases h1 : cfgCat bk "find" find_methods fi s.findCur s.findParams with ⟨e1, c1, m1⟩
  rw [h1] at h
  cases e1 with
  | some e =>
    dsimp only at h
    rw [Prod.ext_iff] at h
    obtain ⟨he, hs⟩ := h
    injection he with he
    subst he
    obtain ⟨hc, hm⟩ := cfgCat_ifme _ _ _ _ _ _ _ _ h1
    subst hc; subst hm
    refine ⟨none, none, none, none, Or.inr rfl, Or.inr rfl, Or.inr rfl, Or.inr rfl, ?_⟩
    dsimp only at hs
    rw [← hs]
    rfl
  | none =>
    dsimp only at h
    rcases h2 : cfgCat bk "tmatch" template_matchers tm s.tmatchCur s.tmatchParams with ⟨e2, c2, m2⟩
    rw [h2] at h
    cases e2 with
    | some e =>
      dsimp only at h
      rw [Prod.ext_iff] at h
      obtain ⟨he, hs⟩ := h
      injection he with he
      subst he
      obtain ⟨hc, hm⟩ := cfgCat_ifme _ _ _ _ _ _ _ _ h2
      subst hc; subst hm
      refine ⟨fi, none, none, none, Or.inl rfl, Or.inr rfl, Or.inr rfl, Or.inr rfl, ?_⟩
      dsimp only at hs
      rw [← hs]
      unfold configure_backend
      rw [h1]
      rfl
    | none =>
      dsimp only at h
      rcases h3 : cfgCat bk "fdetect" feature_detectors fd s.fdetectCur s.fdetectParams with ⟨e3, c3, m3⟩
      rw [h3] at h
      cases e3 with
      | some e =>
        dsimp only at h
        rw [Prod.ext_iff] at h
        obtain ⟨he, hs⟩ := h
        injection he with he
        subst he
        obtain ⟨hc, hm⟩ := cfgCat_ifme _ _ _ _ _ _ _ _ h3
        subst hc; subst hm
        refine ⟨fi, tm, none, none, Or.inl rfl, Or.inl rfl, Or.inr rfl, Or.inr rfl, ?_⟩
        dsimp only at hs
        rw [← hs]
        unfold configure_backend
        rw [h1]
        dsimp only
        rw [h2]
        rfl
      | none =>
        dsimp only at h
        rcases h4 : cfgCat bk "fextract" feature_extractors fe s.fextractCur s.fextractParams with ⟨e4, c4, m4⟩
        rw [h4] at h
        cases e4 with
        | some e =>
          dsimp only at h
          rw [Prod.ext_iff] at h
          obtain ⟨he, hs⟩ := h
          injection he with he
          subst he
          obtain ⟨hc, hm⟩ := cfgCat_ifme _ _ _ _ _ _ _ _ h4
          subst hc; subst hm
          refine ⟨fi, tm, fd, none, Or.inl rfl, Or.inl rfl, Or.inl rfl, Or.inr rfl, ?_⟩
          dsimp only at hs
          rw [← hs]
          unfold configure_backend
          rw [h1]
          dsimp only
          rw [h2]
          dsimp only
          rw [h3]
          rfl
        | none =>
          dsimp only at h
          rcases h5 : cfgCat bk "fmatch" feature_matchers fm s.fmatchCur s.fmatchParams with ⟨e5, c5, m5⟩
          rw [h5] at h
          cases e5 with
          | some e =>
            dsimp only at h
            rw [Prod.ext_iff] at h
            obtain ⟨he, hs⟩ := h
            injection he with he
            subst he
            obtain ⟨hc, hm⟩ := cfgCat_ifme _ _ _ _ _ _ _ _ h5
            subst hc; subst hm
            refine ⟨fi, tm, fd, fe, Or.inl rfl, Or.inl rfl, Or.inl rfl, Or.inl rfl, ?_⟩
            dsimp only at hs
            rw [← hs]
            unfold configure_backend
            rw [h1]
            dsimp only
            rw [h2]
            dsimp only
            rw [h3]
            dsimp only
            rw [h4]
            rfl
          | none =>
            dsimp only at h
            rw [Prod.ext_iff] at h
            exact absurd h.1 (by simp)

/-- Witness for the amended C2 at concrete inputs. -/
theorem configure_error_prefix_witness :
    ∃ fi2 tm2 fd2 fe2,
      (fi2 = some "feature" ∨ fi2 = none) ∧ (tm2 = some "bogus" ∨ tm2 = none) ∧
      (fd2 = (none : Option String) ∨ fd2 = none) ∧ (fe2 = (none : Option String) ∨ fe2 = none) ∧
      configure_backend bkEmpty sInit fi2 tm2 fd2 fe2 none =
        (none, (configure_backend bkEmpty sInit (some "feature") (some "bogus") none none none).2) :=
  configure_error_prefix bkEmpty sInit (some "feature") (some "bogus") none none none
    (configure_backend bkEmpty sInit (some "feature") (some "bogus") none none none).2
    (by decide)

/-- A `bytes` parameter of the `fextract` category (the BRIEF extractor's
descriptor size), as wrapped by the equalizer, with `fixed = True`. -/
def pBytes : CVParameter := ⟨.vInt 32, .vInt 1, .vFloat (mkRat 9 10), (none, none), true⟩

/-- A registry whose `fextract` dictionary holds that `bytes` parameter. -/
def sBytes : EqState := { sInit with fextractParams := [("bytes", pBytes)] }

/-- C3 failing input: the structural exception of `can_calibrate` never
fires.  The guard `param == "bytes"` compares a `CVParameter` object with a
`str` (always `False` — `param` ranges over `.values()`, not the key names),
so `can_calibrate(True, "fextract")` sets `fixed = False` even on the
`bytes` parameter that the `BUG:`-comment intends to force-fix. -/
theorem can_calibrate_bytes_bug :
    pBytes.fixed = true ∧
    cvParamEqStr pBytes "bytes" = false ∧
    (can_calibrate sBytes true "fextract").1 = none ∧
    alookup (can_calibrate sBytes true "fextract").2.fextractParams "bytes" =
      some { pBytes with fixed := false } := by
  decide

theorem installNative_bad_tag (cat : String) :
    ∀ (pre : List BackendParam) (n : String) (tag : Nat) (v : PVal) rest m,
    2 < tag →
    (∀ x ∈ pre, x.2.1 ≤ 2 ∧ (mkNativeParam cat x.1 x.2.2).isSome) →
    (installNative cat m (pre ++ (n, tag, v) :: rest)).1 = some .backendProtocolError ∧
    ((∀ x ∈ pre, x.1 ≠ n) →
      alookup (installNative cat m (pre ++ (n, tag, v) :: rest)).2 n = alookup m n) := by
  intro pre
  induction pre with
  | nil =>
    intro n tag v rest m htag _
    have h0 : tag ≠ 0 := by omega
    have h1 : tag ≠ 1 := by omega
    have h2 : tag ≠ 2 := by omega
    constructor
    · simp [installNative, h0, h1, h2]
    · intro _
      simp [installNative, h0, h1, h2]
  | cons x pre ih =>
    intro n tag v rest m htag hgood
    obtain ⟨xn, xt, xv⟩ := x
    obtain ⟨hxt, hxmk⟩ := hgood _ (List.mem_cons_self _ _)
    obtain ⟨p, hp⟩ := Option.isSome_iff_exists.mp hxmk
    have hxt2 : xt ≤ 2 := hxt
    have hxt3 : xt = 0 ∨ xt = 1 ∨ xt = 2 := by omega
    have hcond : (xt == 0 || xt == 1 || xt == 2) = true := by
      rcases hxt3 with h | h | h <;> simp [h]
    have step : installNative cat m ((xn, xt, xv) :: (pre ++ (n, tag, v) :: rest)) =
        installNative cat (aset m xn p) (pre ++ (n, tag, v) :: rest) := by
      simp [installNative, hcond, hp]
    rw [List.cons_append, step]
    have IH := ih n tag v rest (aset m xn p) htag
      (fun y hy => hgood y (List.mem_cons_of_mem _ hy))
    refine ⟨IH.1, ?_⟩
    intro hne
    have hxn : xn ≠ n := hne (xn, xt, xv) (List.mem_cons_self _ _)
    rw [IH.2 (fun y hy => hne y (List.mem_cons_of_mem _ hy))]
    exact alookup_aset_ne m xn n p (Ne.symm hxn)

theorem replace_fdetect_generic (bk : CVBackends) (o nw : String) (m : ParamMap)
    (h : nw ≠ "oldSURF") :
    replaceParams bk "fdetect" o nw m =
      installNative "fdetect" (popOld m (backendNames (bk.detectorOf o))) (bk.detectorOf nw) := by
  unfold replaceParams
  rw [if_neg (by decide), if_neg (by decide), if_pos (by decide), if_neg (by simp [h])]

theorem replace_fextract_generic (bk : CVBackends) (o nw : String) (m : ParamMap) :
    replaceParams bk "fextract" o nw m =
      installNative "fextract" (popOld m (backendNames (bk.extractorOf o))) (bk.extractorOf nw) := by
  unfold replaceParams
  rw [if_neg (by decide), if_neg (by decide), if_neg (by decide), if_pos (by decide)]

/-- C7: during algorithm selection through the generic query path, a native
parameter whose type tag is outside `{0, 1, 2}` makes `_replace_params` raise
`BackendProtocolError` (the `getAlgorithm` branch) the moment it is reached:
the selection call fails, and the offending parameter is never installed in
the registry — its binding stays whatever survived the old-parameter removal
phase. -/
theorem unknown_tag_protocol_error :
    (∀ (bk : CVBackends) (o nw : String) (m : ParamMap) pre n tag v rest,
      nw ≠ "oldSURF" →
      bk.detectorOf nw = pre ++ (n, tag, v) :: rest →
      2 < tag →
      (∀ x ∈ pre, x.2.1 ≤ 2 ∧ (mkNativeParam "fdetect" x.1 x.2.2).isSome) →
      (replaceParams bk "fdetect" o nw m).1 = some .backendProtocolError ∧
      ((∀ x ∈ pre, x.1 ≠ n) →
        alookup (replaceParams bk "fdetect" o nw m).2 n =
          alookup (popOld m (backendNames (bk.detectorOf o))) n)) ∧
    (∀ (bk : CVBackends) (o nw : String) (m : ParamMap) pre n tag v rest,
      bk.extractorOf nw = pre ++ (n, tag, v) :: rest →
      2 < tag →
      (∀ x ∈ pre, x.2.1 ≤ 2 ∧ (mkNativeParam "fextract" x.1 x.2.2).isSome) →
      (replaceParams bk "fextract" o nw m).1 = some .backendProtocolError ∧
      ((∀ x ∈ pre, x.1 ≠ n) →
        alookup (replaceParams bk "fextract" o nw m).2 n =
          alookup (popOld m (backendNames (bk.extractorOf o))) n)) := by
  constructor
  · intro bk o nw m pre n tag v rest hnw hparams htag hgood
    rw [replace_fdetect_generic bk o nw m hnw, hparams]
    exact installNative_bad_tag "fdetect" pre n tag v rest _ htag hgood
  · intro bk o nw m pre n tag v rest hparams htag hgood
    rw [replace_fextract_generic bk o nw m, hparams]
    exact installNative_bad_tag "fextract" pre n tag v rest _ htag hgood

/-- An oracle whose backend objects report one native parameter with the
unknown type tag `7`. -/
def bkBadTag : CVBackends :=
  ⟨fun _ => [("weirdParam", 7, .vNone)], fun _ => [("weirdParam", 7, .vNone)]⟩

/-- Witness for C7 at concrete inputs. -/
theorem unknown_tag_protocol_error_witness :
    (replaceParams bkBadTag "fdetect" "ORB" "FAST" []).1 = some .backendProtocolError ∧
    alookup (replaceParams bkBadTag "fdetect" "ORB" "FAST" []).2 "weirdParam" =
      alookup (popOld [] (backendNames (bkBadTag.detectorOf "ORB"))) "weirdParam" := by
  have h := unknown_tag_protocol_error.1 bkBadTag "ORB" "FAST" [] []
    "weirdParam" 7 .vNone [] (by decide) rfl (by decide) (by simp)
  exact ⟨h.1, h.2 (by simp)⟩

theorem cvparam_eta (p : CVParameter) : ({ p with value := p.value } : CVParameter) = p := rfl

theorem tagOk_le (t : Nat) : ((t == 0 || t == 1 || t == 2) = true) ↔ t ≤ 2 := by
  simp only [Bool.or_eq_true, beq_iff_eq]
  omega

theorem bsig_bset (b : Backend) (n : String) (v : PVal) : bsig (bset b n v) = bsig b := by
  induction b with
  | nil => rfl
  | cons x rest ih =>
    obtain ⟨k, t, w⟩ := x
    by_cases hk : k = n
    · subst hk; simp [bset, bsig]
    · simpa [bset, bsig, hk] using ih

theorem bget_isSome_bset (b : Backend) (n : String) (v : PVal) (k : String) :
    (bget (bset b n v) k).isSome = (bget b k).isSome := by
  induction b with
  | nil => rfl
  | cons x rest ih =>
    obtain ⟨kn, t, w⟩ := x
    by_cases hk : kn = n
    · subst hk
      by_cases hkk : kn = k
      · subst hkk; simp [bset, bget]
      · simp [bset, bget, hkk, ih]
    · by_cases hkk : kn = k
      · subst hkk; simp [bset, bget, hk]
      · simp [bset, bget, hk, hkk, ih]

theorem bget_bset_self (b : Backend) (n : String) (v : PVal)
    (h : (bget b n).isSome) : bget (bset b n v) n = some v := by
  induction b with
  | nil => simp [bget] at h
  | cons x rest ih =>
    obtain ⟨k, t, w⟩ := x
    by_cases hk : k = n
    · subst hk; simp [bset, bget]
    · simp only [bget, beq_iff_eq, hk, if_neg, not_false_iff] at h
      simp [bset, bget, hk, ih h]

theorem bget_bset_ne (b : Backend) (n : String) (v : PVal) (k : String)
    (h : k ≠ n) : bget (bset b n v) k = bget b k := by
  induction b with
  | nil => rfl
  | cons x rest ih =>
    obtain ⟨kn, t, w⟩ := x
    by_cases hkn : kn = n
    · subst hkn
      have : ¬ (kn == k) := by simpa using fun he => h he.symm
      simp [bset, bget, this]
    · by_cases hkk : kn = k
      · subst hkk; simp [bset, bget, hkn]
      · simp [bset, bget, hkn, hkk, ih]

theorem bset_bget_self (b : Backend) (n : String) (v : PVal)
    (h : bget b n = some v) : bset b n v = b := by
  induction b with
  | nil => rfl
  | cons x rest ih =>
    obtain ⟨k, t, w⟩ := x
    by_cases hk : k = n
    · subst hk
      simp only [bget, beq_self_eq_true, if_pos] at h
      injection h with h
      simp [bset, h]
    · simp only [bget, beq_iff_eq, hk, if_neg, not_false_iff] at h
      simp [bset, hk, ih h]

theorem bsig_mem_isSome (b : Backend) (n : String) (t : Nat)
    (h : (n, t) ∈ bsig b) : (bget b n).isSome := by
  induction b with
  | nil => simp [bsig] at h
  | cons x rest ih =>
    obtain ⟨k, kt, w⟩ := x
    by_cases hk : k = n
    · subst hk; simp [bget]
    · simp only [bsig, List.map_cons, List.mem_cons] at h
      rcases h with h | h
      · exact absurd (congrArg Prod.fst h).symm hk
      · simp only [bget, beq_iff_eq, hk, if_neg, not_false_iff]
        exact ih h

theorem syncLoop_map_eq :
    ∀ (entries : List (String × Nat)) (m : ParamMap) (b : Backend),
    (syncLoop m b entries).2.2 = m := by
  intro entries
  induction entries with
  | nil => intro m b; rfl
  | cons x rest ih =>
    intro m b
    obtain ⟨name, tag⟩ := x
    unfold syncLoop
    cases hl : alookup m name with
    | none => exact ih m b
    | some p =>
      dsimp only
      split_ifs with ht
      · rw [cvparam_eta, aset_alookup_self m name p hl]
        exact ih m (bset b name p.value)
      · rfl

theorem syncLoop_bsig :
    ∀ (entries : List (String × Nat)) (m : ParamMap) (b : Backend) e b' m',
    syncLoop m b entries = (e, b', m') → bsig b' = bsig b := by
  intro entries
  induction entries with
  | nil =>
    intro m b e b' m' h
    simp only [syncLoop, Prod.ext_iff] at h
    rw [← h.2.1]
  | cons x rest ih =>
    intro m b e b' m' h
    obtain ⟨name, tag⟩ := x
    unfold syncLoop at h
    cases hl : alookup m name with
    | none => rw [hl] at h; exact ih m b e b' m' h
    | some p =>
      rw [hl] at h
      split_ifs at h with ht
      · rw [ih _ _ e b' m' h, bsig_bset]
      · simp only [Prod.ext_iff] at h
        rw [← h.2.1]

theorem syncLoop_val_preserved :
    ∀ (entries : List (String × Nat)) (m : ParamMap) (b : Backend) e b' m',
    syncLoop m b entries = (e, b', m') →
    ∀ k p, alookup m k = some p → bget b k = some p.value → bget b' k = some p.value := by
  intro entries
  induction entries with
  | nil =>
    intro m b e b' m' h k p hk hb
    simp only [syncLoop, Prod.ext_iff] at h
    rw [← h.2.1]
    exact hb
  | cons x rest ih =>
    intro m b e b' m' h k p hk hb
    obtain ⟨name, tag⟩ := x
    unfold syncLoop at h
    cases hl : alookup m name with
    | none => rw [hl] at h; exact ih m b e b' m' h k p hk hb
    | some q =>
      rw [hl] at h
      dsimp only at h
      split_ifs at h with ht
      · rw [cvparam_eta, aset_alookup_self m name q hl] at h
        by_cases hkn : k = name
        · subst hkn
          have hq : q = p := by rw [hl] at hk; injection hk
          subst hq
          refine ih m _ e b' m' h k q hk ?_
          rw [bget_bset_self b k q.value (by rw [hb]; rfl)]
        · refine ih m _ e b' m' h k p hk ?_
          rw [bget_bset_ne b name q.value k hkn]
          exact hb
      · simp only [Prod.ext_iff] at h
        rw [← h.2.1]
        exact hb

theorem syncLoop_synced :
    ∀ (entries : List (String × Nat)) (m : ParamMap) (b : Backend) b' m',
    syncLoop m b entries = (none, b', m') →
    ∀ n t, (n, t) ∈ entries → (bget b n).isSome →
    ∀ p, alookup m n = some p → bget b' n = some p.value ∧ t ≤ 2 := by
  intro entries
  induction entries with
  | nil =>
    intro m b b' m' h n t hmem
    simp at hmem
  | cons x rest ih =>
    intro m b b' m' h n t hmem hbsome p hp
    obtain ⟨name, tag⟩ := x
    unfold syncLoop at h
    cases hl : alookup m name with
    | none =>
      rw [hl] at h
      rcases List.mem_cons.mp hmem with he | hmem'
      · exfalso
        have hn : n = name := congrArg Prod.fst he
        rw [hn, hl] at hp
        exact Option.noConfusion hp
      · exact ih m b b' m' h n t hmem' hbsome p hp
    | some q =>
      rw [hl] at h
      dsimp only at h
      split_ifs at h with ht
      · rw [cvparam_eta, aset_alookup_self m name q hl] at h
        rcases List.mem_cons.mp hmem with he | hmem'
        · have hn : n = name := congrArg Prod.fst he
          have htg : t = tag := congrArg Prod.snd he
          subst hn; subst htg
          have hq : q = p := by rw [hl] at hp; injection hp
          subst hq
          refine ⟨?_, (tagOk_le _).mp ht⟩
          exact syncLoop_val_preserved rest m _ none b' m' h n q hp
            (bget_bset_self b n q.value hbsome)
        · refine ih m _ b' m' h n t hmem' ?_ p hp
          rw [bget_isSome_bset]
          exact hbsome
      · exact absurd ((Prod.ext_iff.mp h).1) (by simp)

theorem syncLoop_already_synced :
    ∀ (entries : List (String × Nat)) (m : ParamMap) (b : Backend),
    (∀ n t, (n, t) ∈ entries → ∀ p, alookup m n = some p →
      bget b n = some p.value ∧ t ≤ 2) →
    syncLoop m b entries = (none, b, m) := by
  intro entries
  induction entries with
  | nil => intro m b _; rfl
  | cons x rest ih =>
    intro m b hsync
    obtain ⟨name, tag⟩ := x
    unfold syncLoop
    cases hl : alookup m name with
    | none => exact ih m b (fun n t hmem p hp => hsync n t (List.mem_cons_of_mem _ hmem) p hp)
    | some p =>
      dsimp only
      obtain ⟨hbp, htag⟩ := hsync name tag (List.mem_cons_self _ _) p hl
      rw [if_pos ((tagOk_le tag).mpr htag), cvparam_eta, aset_alookup_self m name p hl,
        bset_bget_self b name p.value hbp]
      exact ih m b (fun n t hmem q hq => hsync n t (List.mem_cons_of_mem _ hmem) q hq)

theorem setParamsOf_self (s : EqState) (cat : String) (m : ParamMap)
    (h : s.paramsOf cat = some m) : s.setParamsOf cat m = s := by
  unfold EqState.paramsOf at h
  unfold EqState.setParamsOf
  split_ifs at h ⊢ <;> first
    | (injection h with h; subst h; rfl)
    | exact Option.noConfusion h

/-- C6: `sync_backend_to_params` returns the backend unchanged and pushes no
parameter values for `find` and `tmatch`, for `fdetect` when the current
algorithm is `oldSURF`, and for `fmatch` under every current algorithm (the
known-buggy matcher short-circuit is unconditional); and a successful
synchronization is idempotent: running it again with the same category and no
intervening configuration or parameter change yields the same backend and the
same registry state with no further change. -/
theorem sync_shortcircuit_idempotent :
    (∀ (s : EqState) (b : Backend),
      sync_backend_to_params s b "find" = (none, b, s) ∧
      sync_backend_to_params s b "tmatch" = (none, b, s) ∧
      (s.fdetectCur = "oldSURF" → sync_backend_to_params s b "fdetect" = (none, b, s)) ∧
      sync_backend_to_params s b "fmatch" = (none, b, s)) ∧
    (∀ (s : EqState) (b : Backend) (cat : String) (b' : Backend) (s' : EqState),
      sync_backend_to_params s b cat = (none, b', s') →
      sync_backend_to_params s' b' cat = (none, b', s')) := by
  constructor
  · intro s b
    refine ⟨rfl, rfl, ?_, ?_⟩
    · intro h
      unfold sync_backend_to_params
      rw [if_pos (by simp [h])]
    · unfold sync_backend_to_params
      rw [if_neg (by simp), if_pos (by decide), ite_self]
  · intro s b cat b' s' h
    by_cases hc1 : (cat == "find" || cat == "tmatch" ||
        (cat == "fdetect" && s.fdetectCur == "oldSURF")) = true
    · unfold sync_backend_to_params at h
      rw [if_pos hc1] at h
      simp only [Prod.ext_iff] at h
      obtain ⟨-, hb, hs⟩ := h
      rw [← hb, ← hs]
      unfold sync_backend_to_params
      rw [if_pos hc1]
    · by_cases hc2 : (cat == "fmatch") = true
      · have hcat : cat = "fmatch" := by simpa using hc2
        subst hcat
        unfold sync_backend_to_params at h
        rw [if_neg hc1, if_pos (by decide), ite_self] at h
        simp only [Prod.ext_iff] at h
        obtain ⟨-, hb, hs⟩ := h
        rw [← hb, ← hs]
        unfold sync_backend_to_params
        rw [if_neg hc1, if_pos (by decide), ite_self]
      · unfold sync_backend_to_params at h
        rw [if_neg hc1, if_neg hc2] at h
        cases hm : s.paramsOf cat with
        | none =>
          rw [hm] at h
          dsimp only at h
          exact absurd (Prod.ext_iff.mp h).1 (by simp)
        | some m =>
          rw [hm] at h
          dsimp only at h
          rcases hsl : syncLoop m b (bsig b) with ⟨e, b1, m1⟩
          rw [hsl] at h
          dsimp only at h
          simp only [Prod.ext_iff] at h
          obtain ⟨he, hb, hs⟩ := h
          subst he
          have hm1 : m1 = m := by
            have hq := syncLoop_map_eq (bsig b) m b
            rw [hsl] at hq
            exact hq
          rw [hm1] at hsl hs
          rw [← hb, ← hs, setParamsOf_self s cat m hm]
          unfold sync_backend_to_params
          rw [if_neg hc1, if_neg hc2, hm]
          dsimp only
          have hsig : bsig b1 = bsig b := syncLoop_bsig (bsig b) m b none b1 m hsl
          rw [hsig]
          have hsync2 : syncLoop m b1 (bsig b) = (none, b1, m) := by
            apply syncLoop_already_synced
            intro n t hmem p hp
            have hbs : (bget b n).isSome := bsig_mem_isSome b n t hmem
            exact syncLoop_synced (bsig b) m b b1 m hsl n t hmem hbs p hp
          rw [hsync2]
          dsimp only
          rw [setParamsOf_self s cat m hm]

/-- A concrete backend object with one integer-tagged native parameter. -/
def bOne : Backend := [("nFeatures", 0, .vInt 500)]

/-- A registry whose `fextract` dictionary holds an `nFeatures` parameter
with value `400`. -/
def sOne : EqState :=
  { sInit with fextractParams := [("nFeatures", ⟨.vInt 400, .vInt 100, .vFloat (mkRat 1 10), (none, none), true⟩)] }

/-- Witness for C6 at concrete inputs. -/
theorem sync_shortcircuit_idempotent_witness :
    (sOne.fdetectCur = "oldSURF" → sync_backend_to_params sOne bOne "fdetect" = (none, bOne, sOne)) ∧
    sync_backend_to_params sOne bOne "fmatch" = (none, bOne, sOne) ∧
    sync_backend_to_params sOne (bset bOne "nFeatures" (.vInt 400)) "fextract" =
      (none, bset bOne "nFeatures" (.vInt 400), sOne) := by
  refine ⟨(sync_shortcircuit_idempotent.1 sOne bOne).2.2.1,
    (sync_shortcircuit_idempotent.1 sOne bOne).2.2.2, ?_⟩
  exact sync_shortcircuit_idempotent.2 sOne bOne "fextract"
    (bset bOne "nFeatures" (.vInt 400)) sOne (by decide)

theorem alookup_append {α : Type} (l1 l2 : List (String × α)) (n : String) :
    alookup (l1 ++ l2) n =
      match alookup l1 n with
      | some v => some v
      | none => alookup l2 n := by
  induction l1 with
  | nil => rfl
  | cons kw rest ih =>
    obtain ⟨k, w⟩ := kw
    by_cases hk : k = n
    · subst hk; simp [alookup]
    · simp [alookup, hk, ih]

/-- The mutable state behind `GlobalConfig`: each settings attribute name is
mapped to its current value. -/
abbrev GlobalCfg := String → PVal

/-- `TemporaryConfig._original_values`: attribute name to the value
`GlobalConfig` held at the context's first assignment to it, in insertion
order. -/
abbrev Originals := List (String × PVal)

/-- `TemporaryConfig.__setattr__(name, value)`: record the wrapped config's
current value, but only at the first assignment to `name` inside this
context, then assign through to `GlobalConfig`. -/
def tempSetattr (g : GlobalCfg) (o : Originals) (name : String) (value : PVal) :
    GlobalCfg × Originals :=
  ((fun k => if k == name then value else g k),
   if (alookup o name).isSome then o else o ++ [(name, g name)])

/-- A sequence of assignments performed through the context. -/
def tempApply (g : GlobalCfg) (o : Originals) : List (String × PVal) → GlobalCfg × Originals
  | [] => (g, o)
  | (n, v) :: rest => tempApply (tempSetattr g o n v).1 (tempSetattr g o n v).2 rest

/-- `TemporaryConfig.__exit__`: write every recorded original value back into
`GlobalConfig`, in recorded order (the backup dictionary is cleared after,
which does not affect the wrapped config).  `__exit__(*_)` ignores any
exception, so this runs on every exit path. -/
def tempExit (g : GlobalCfg) : Originals → GlobalCfg
  | [] => g
  | (n, v) :: rest => tempExit (fun k => if k == n then v else g k) rest

theorem tempExit_restores :
    ∀ (o : Originals) (g g0 : GlobalCfg),
    (∀ k v, (k, v) ∈ o → v = g0 k) →
    (∀ k, alookup o k = none → g k = g0 k) →
    ∀ k, tempExit g o k = g0 k := by
  intro o
  induction o with
  | nil =>
    intro g g0 _ inv2 k
    exact inv2 k rfl
  | cons x rest ih =>
    intro g g0 inv1 inv2 k
    obtain ⟨n, v⟩ := x
    unfold tempExit
    refine ih _ g0 (fun k v hm => inv1 k v (List.mem_cons_of_mem _ hm)) ?_ k
    intro q hq
    by_cases hqn : q = n
    · subst hqn
      simp only [beq_self_eq_true, if_pos]
      exact (inv1 q v (List.mem_cons_self _ _)).symm ▸ rfl
    · have hbeq : ¬ (q == n) := by simpa using hqn
      simp only [hbeq, if_neg, Bool.false_eq_true, not_false_iff]
      refine inv2 q ?_
      have hnq : n ≠ q := fun h => hqn h.symm
      simp [alookup, hnq, hq]

theorem tempApply_inv :
    ∀ (ops : List (String × PVal)) (g : GlobalCfg) (o : Originals) (g0 : GlobalCfg),
    (∀ k v, (k, v) ∈ o → v = g0 k) →
    (∀ k, alookup o k = none → g k = g0 k) →
    (∀ k v, (k, v) ∈ (tempApply g o ops).2 → v = g0 k) ∧
    (∀ k, alookup (tempApply g o ops).2 k = none → (tempApply g o ops).1 k = g0 k) := by
  intro ops
  induction ops with
  | nil => intro g o g0 inv1 inv2; exact ⟨inv1, inv2⟩
  | cons x rest ih =>
    intro g o g0 inv1 inv2
    obtain ⟨n, v⟩ := x
    unfold tempApply tempSetattr
    dsimp only
    by_cases ho : (alookup o n).isSome
    · rw [if_pos ho]
      refine ih _ o g0 inv1 ?_
      intro k hk
      by_cases hkn : k = n
      · subst hkn
        rw [hk] at ho
        exact absurd ho (by simp)
      · have hbeq : ¬ (k == n) := by simpa using hkn
        simp only [hbeq, if_neg, Bool.false_eq_true, not_false_iff]
        exact inv2 k hk
    · rw [if_neg ho]
      refine ih _ (o ++ [(n, g n)]) g0 ?_ ?_
      · intro k w hm
        rcases List.mem_append.mp hm with hm | hm
        · exact inv1 k w hm
        · simp only [List.mem_singleton, Prod.mk.injEq] at hm
          obtain ⟨hk, hw⟩ := hm
          subst hk; subst hw
          exact inv2 k (by simpa using ho)
      · intro k hk
        rw [alookup_append] at hk
        rcases hl : alookup o k with _ | w
        · rw [hl] at hk
          dsimp only at hk
          have hkn : k ≠ n := by
            intro he
            subst he
            simp [alookup] at hk
          have hbeq : ¬ (k == n) := by simpa using hkn
          simp only [hbeq, if_neg, Bool.false_eq_true, not_false_iff]
          exact inv2 k hl
        · rw [hl] at hk
          exact Option.noConfusion hk

theorem tempApply_untouched :
    ∀ (ops : List (String × PVal)) (g : GlobalCfg) (o : Originals) (k : String),
    k ∉ ops.map Prod.fst → (tempApply g o ops).1 k = g k := by
  intro ops
  induction ops with
  | nil => intro g o k _; rfl
  | cons x rest ih =>
    intro g o k hk
    obtain ⟨n, v⟩ := x
    simp only [List.map_cons, List.mem_cons, not_or] at hk
    obtain ⟨hkn, hkrest⟩ := hk
    unfold tempApply tempSetattr
    dsimp only
    rw [ih _ _ k hkrest]
    have hbeq : ¬ (k == n) := by simpa using hkn
    simp [hbeq]

/-- C8: for every sequence of attribute assignments performed through a
`TemporaryConfig` context over an initial `GlobalConfig` state, running
`__exit__` restores every wrapped attribute to the value it held before the
context's first assignment to it, and attributes never assigned inside the
context are left unchanged throughout.  `__exit__(*_)` ignores the exception
arguments, and an exception inside the block simply makes the restore run
after a prefix of the assignment sequence — every prefix is itself such a
sequence, so both exit paths are covered by the quantification over `ops`. -/
theorem temporary_config_restores :
    ∀ (g0 : GlobalCfg) (ops : List (String × PVal)),
    (∀ k, tempExit (tempApply g0 [] ops).1 (tempApply g0 [] ops).2 k = g0 k) ∧
    (∀ k, k ∉ ops.map Prod.fst → (tempApply g0 [] ops).1 k = g0 k) := by
  intro g0 ops
  obtain ⟨i1, i2⟩ := tempApply_inv ops g0 [] g0 (by simp) (fun _ _ => rfl)
  constructor
  · intro k
    exact tempExit_restores (tempApply g0 [] ops).2 (tempApply g0 [] ops).1 g0 i1 i2 k
  · intro k hk
    rw [tempApply_untouched ops g0 [] k hk]

/-- A concrete `GlobalConfig` state for the witness. -/
def gDefaults : GlobalCfg := fun k => if k == "delay_before_drop" then .vFloat (mkRat 1 2) else .vInt 0

/-- Witness for C8 at concrete inputs: assign `delay_before_drop` twice and
`toggle_delay` once, exit, and observe both restoration and that an
unassigned attribute never changed. -/
theorem temporary_config_restores_witness :
    (tempExit
      (tempApply gDefaults [] [("delay_before_drop", .vFloat (mkRat 13 10)),
        ("delay_before_drop", .vFloat 2), ("toggle_delay", .vFloat 1)]).1
      (tempApply gDefaults [] [("delay_before_drop", .vFloat (mkRat 13 10)),
        ("delay_before_drop", .vFloat 2), ("toggle_delay", .vFloat 1)]).2
      "delay_before_drop" = gDefaults "delay_before_drop") ∧
    (tempApply gDefaults [] [("delay_before_drop", .vFloat (mkRat 13 10)),
      ("delay_before_drop", .vFloat 2), ("toggle_delay", .vFloat 1)]).1
      "click_delay" = gDefaults "click_delay" :=
  ⟨(temporary_config_restores gDefaults _).1 "delay_before_drop",
   (temporary_config_restores gDefaults _).2 "click_delay" (by decide)⟩

/-- Exceptions of `guibot.errors` used by `LocalConfig`. -/
inductive ConfigError where
  | unsupportedBackendError
  | uninitializedBackendError
deriving DecidableEq, Repr

/-- The mutable state of a `LocalConfig` instance: its `params` dictionary
(category name to configuration dictionary).  `categories` maps `"type"` to
`"backend_types"` and `algorithms` maps `"backend_types"` to `("cv", "dc")`;
both are fixed at construction and never mutated. -/
structure LocalConfigState where
  params : List (String × List (String × String))
deriving DecidableEq, Repr

/-- `self.algorithms[self.categories["type"]]`. -/
def lcAlgorithms : List String := ["cv", "dc"]

/-- `LocalConfig.__configure_backend(backend, category, reset)`: an unknown
category raises `UnsupportedBackendError`; `None` defaults to `"cv"`; a
backend outside the admissible set raises `UnsupportedBackendError`;
otherwise `params[category]` is rebuilt with the chosen backend. -/
def lc_configure_backend (st : LocalConfigState) (backend : Option String)
    (category : String) (_reset : Bool) : Option ConfigError × LocalConfigState :=
  if category ≠ "type" then (some .unsupportedBackendError, st)
  else
    if backend.getD "cv" ∈ lcAlgorithms then
      (none, ⟨aset st.params "type" [("backend", backend.getD "cv")]⟩)
    else (some .unsupportedBackendError, st)

/-- `LocalConfig.__synchronize_backend(backend, category, reset)`: an unknown
category raises `UnsupportedBackendError`; `None` defaults to `"cv"`; a
backend outside the admissible set raises `UninitializedBackendError`
("has not been configured yet"); otherwise there is no backend object to
sync to and the state is untouched. -/
def lc_synchronize_backend (st : LocalConfigState) (backend : Option String)
    (category : String) (_reset : Bool) : Option ConfigError × LocalConfigState :=
  if category ≠ "type" then (some .unsupportedBackendError, st)
  else
    if backend.getD "cv" ∈ lcAlgorithms then (none, st)
    else (some .uninitializedBackendError, st)

/-- The state of a freshly constructed `LocalConfig(configure=True,
synchronize=True)`. -/
def lcInit : LocalConfigState := ⟨[("type", [("backend", "cv")])]⟩

/-- C9 counterexample: for the known category `"type"`, the unknown backend
name `"bogus"` raises `UnsupportedBackendError` from `configure_backend` but
`UninitializedBackendError` — not `UnsupportedBackendError` — from
`synchronize_backend`. -/
theorem local_config_errors_counterexample :
    lc_configure_backend lcInit (some "bogus") "type" false =
      (some .unsupportedBackendError, lcInit) ∧
    lc_synchronize_backend lcInit (some "bogus") "type" false =
      (some .uninitializedBackendError, lcInit) ∧
    ConfigError.uninitializedBackendError ≠ ConfigError.unsupportedBackendError := by
  decide

/-- C9 (amended): an unknown backend name for the known category raises
`UnsupportedBackendError` from `configure_backend` but
`UninitializedBackendError` from `synchronize_backend`; an unknown category
raises `UnsupportedBackendError` from both; `configure_backend` never raises
`UninitializedBackendError`; and `UninitializedBackendError` arises only from
a synchronize call on the known category with a backend name outside the
admissible set — a name that can never have been configured, since a
successful configuration always stores an admissible name. -/
theorem local_config_errors_amended :
    (∀ (st : LocalConfigState) (b : String) (r : Bool), b ∉ lcAlgorithms →
      lc_configure_backend st (some b) "type" r = (some .unsupportedBackendError, st) ∧
      lc_synchronize_backend st (some b) "type" r = (some .uninitializedBackendError, st)) ∧
    (∀ (st : LocalConfigState) (bo : Option String) (c : String) (r : Bool), c ≠ "type" →
      lc_configure_backend st bo c r = (some .unsupportedBackendError, st) ∧
      lc_synchronize_backend st bo c r = (some .unsupportedBackendError, st)) ∧
    (∀ (st : LocalConfigState) (bo : Option String) (c : String) (r : Bool) e st',
      lc_configure_backend st bo c r = (some e, st') → e = .unsupportedBackendError) ∧
    (∀ (st : LocalConfigState) (bo : Option String) (c : String) (r : Bool) st',
      lc_synchronize_backend st bo c r = (some .uninitializedBackendError, st') →
      c = "type" ∧ bo.getD "cv" ∉ lcAlgorithms) ∧
    (∀ (st : LocalConfigState) (bo : Option String) (c : String) (r : Bool) st',
      lc_configure_backend st bo c r = (none, st') →
      alookup st'.params "type" = some [("backend", bo.getD "cv")] ∧
      bo.getD "cv" ∈ lcAlgorithms) := by
  refine ⟨?_, ?_, ?_, ?_, ?_⟩
  · intro st b r hb
    constructor
    · unfold lc_configure_backend
      rw [if_neg (by simp), if_neg (by simpa using hb)]
    · unfold lc_synchronize_backend
      rw [if_neg (by simp), if_neg (by simpa using hb)]
  · intro st bo c r hc
    constructor
    · unfold lc_configure_backend
      rw [if_pos hc]
    · unfold lc_synchronize_backend
      rw [if_pos hc]
  · intro st bo c r e st' h
    unfold lc_configure_backend at h
    split_ifs at h <;> simp only [Prod.ext_iff] at h <;>
      first
        | (injection h.1 with h1; exact h1.symm)
        | exact Option.noConfusion h.1
  · intro st bo c r st' h
    unfold lc_synchronize_backend at h
    split_ifs at h with h1 h2
    · exact absurd ((Option.some.injEq _ _).mp (Prod.ext_iff.mp h).1)
        (by simp)
    · exact absurd (Prod.ext_iff.mp h).1 (by simp)
    · exact ⟨not_not.mp h1, h2⟩
  · intro st bo c r st' h
    unfold lc_configure_backend at h
    split_ifs at h with h1 h2
    · exact absurd (Prod.ext_iff.mp h).1 (by simp)
    · simp only [Prod.ext_iff] at h
      rw [← h.2]
      exact ⟨alookup_aset_self _ _ _, h2⟩
    · exact absurd (Prod.ext_iff.mp h).1 (by simp)

/-- Witness for the amended C9 at concrete inputs. -/
theorem local_config_errors_amended_witness :
    (lc_configure_backend lcInit (some "bogus") "type" false =
      (some .unsupportedBackendError, lcInit) ∧
     lc_synchronize_backend lcInit (some "bogus") "type" false =
      (some .uninitializedBackendError, lcInit)) ∧
    (lc_configure_backend lcInit none "bogusCategory" false =
      (some .unsupportedBackendError, lcInit) ∧
     lc_synchronize_backend lcInit none "bogusCategory" false =
      (some .unsupportedBackendError, lcInit)) :=
  ⟨local_config_errors_amended.1 lcInit "bogus" false (by decide),
   local_config_errors_amended.2.1 lcInit none "bogusCategory" false (by decide)⟩
